import Mathlib

/-!
Verification development for the Wieserlabs FlexDDS-NG host driver
(`wieserlabsdds.py`).

The Python code is shallowly embedded: Python numbers (ints and floats) are
modelled as exact rationals `ℚ` / integers `ℤ`, Python lists as `List`, the
per-slot mutable state (`message_stack`, `cfr_regs`) as an explicit
`SlotState` record threaded through the operations, and Python exceptions as
explicit outcome values (`Option` for attribute errors, dedicated outcome
constructors for `raise` paths).  `round` is Python rounding, i.e. round
half to even.
-/

namespace Wieserlabs

/-- Python `round`: round half to even (banker's rounding). -/
def pyRound (q : ℚ) : ℤ :=
  if q - ⌊q⌋ < 1/2 then ⌊q⌋
  else if 1/2 < q - ⌊q⌋ then ⌊q⌋ + 1
  else if 2 ∣ ⌊q⌋ then ⌊q⌋ else ⌊q⌋ + 1

/-- Python `int(...)` applied to a float: truncation toward zero. -/
def intTrunc (q : ℚ) : ℤ :=
  if 0 ≤ q then ⌊q⌋ else -⌊-q⌋

/-- Python `%` on floats: floored modulus, `a - b * floor (a / b)`. -/
def pyMod (a b : ℚ) : ℚ := a - b * ⌊a / b⌋

/-- Python `x & 0xffff_ffff` for an arbitrary-precision (two's-complement)
integer: the nonnegative residue of `x` modulo `2^32`. -/
def pyAnd32 (x : ℤ) : ℕ := (x % (2^32 : ℤ)).toNat

/-- Lowercase hexadecimal digit for `n < 16` (as produced by Python `x`
formatting). -/
def hexDigitChar (n : ℕ) : Char :=
  if n < 10 then Char.ofNat (48 + n) else Char.ofNat (87 + n)

/-- Hexadecimal digits, least significant first, by structural recursion on
a fuel argument (the value never exceeds the fuel, so the fuel never runs
out when it starts at the value itself). -/
def natToHexAux : ℕ → ℕ → List Char
  | _, 0 => []
  | 0, _ + 1 => []
  | fuel + 1, n + 1 => hexDigitChar ((n+1) % 16) :: natToHexAux fuel ((n+1) / 16)

/-- Hexadecimal digits of `n`, least significant first; empty for `0`. -/
def natToHexRev (n : ℕ) : List Char := natToHexAux n n

/-- Hexadecimal digits of `n`, most significant first; empty for `0`. -/
def natHexDigits (n : ℕ) : List Char := (natToHexRev n).reverse

/-- Python `f"{n:0{width}x}"` for a nonnegative value: lowercase hex,
left-padded with zeros to at least `width` characters. -/
def pyHexNat (width : ℕ) (n : ℕ) : String :=
  ⟨List.leftpad width '0' (natHexDigits n)⟩

/-- Python `f"{v:0{width}x}"` for a possibly negative int: Python places the
sign first and zero-pads the digits to the total width. -/
def pyHexInt (width : ℕ) (v : ℤ) : String :=
  if v < 0 then "-" ++ pyHexNat (width - 1) v.natAbs else pyHexNat width v.toNat

/-- `freq_to_word` from the source.  The out-of-range branch only logs a
warning and assigns `num = 0`, but that assignment is dead: the next source
line unconditionally recomputes `num = round(2**32/1e9*f) & 0xffff_ffff`.
No exception is ever raised. -/
def freq_to_word (f : ℚ) : String :=
  let num : ℕ := pyAnd32 (pyRound ((2:ℚ)^32 / 1e9 * f))
  pyHexNat 8 num

/-- Numeric value of the frequency word (before hex formatting). -/
def freqWordNum (f : ℚ) : ℕ := pyAnd32 (pyRound ((2:ℚ)^32 / 1e9 * f))

/-- Whether `freq_to_word` logs its out-of-range warning. -/
def freqRangeWarns (f : ℚ) : Bool := decide (f < 0 ∨ (1e9:ℚ) ≤ f)

/-- `amp_to_word` from the source: clamp `0x3fff*amp` to `[0, 0x3fff]`,
round, format as (at least) 4 hex digits. -/
def amp_to_word (amp : ℚ) : String :=
  pyHexNat 4 (pyRound (max 0 (min 0x3fff (0x3fff * amp)))).toNat

/-- `phase_to_word` from the source: reduce the phase mod 360, scale to a
16-bit fraction, round, format with minimum width 4. -/
def phase_to_word (phase : ℚ) : String :=
  let phase := pyMod phase 360
  let p : ℤ := pyRound (2^16 * phase / 360)
  pyHexInt 4 p

/-- `get_bit` from the source. -/
def get_bit (v index : ℕ) : ℕ := (v >>> index) &&& 1

/-- `set_bit` from the source.  `v &= ~mask` on a nonnegative
arbitrary-precision int clears the single bit of the mask, which equals
subtracting `v &&& mask`; `x` is an int tested for truthiness. -/
def set_bit (v : ℕ) (index : ℕ) (x : ℤ) : ℕ :=
  let mask : ℕ := 1 <<< index
  let v1 := v - (v &&& mask)
  if x ≠ 0 then v1 ||| mask else v1

/-! ## Command model

One constructor per `MessageType` subclass of the source.  `UpdateMessage`
stores `None`, an int channel, or — after `run` widens it — the empty
string; the dedicated `UChan` type keeps those three Python values apart.
`ResetMessage` stores `""` for a `None` channel, modelled as `Option ℕ`
(`none` renders as the empty token, exactly like the stored `""`). -/

/-- Channel field of an `UpdateMessage`: Python `None`, the empty string
(written by `run`), or an int channel. -/
inductive UChan where
  | pyNone : UChan
  | emptyStr : UChan
  | ch : ℕ → UChan
  deriving DecidableEq, Repr

/-- Python value stored in the `channel` attribute of a non-update message,
as compared by `push_update` (`== None`, `== channel`). -/
inductive PyVal where
  | pynone : PyVal
  | pyint : ℕ → PyVal
  | pystr : String → PyVal
  deriving DecidableEq, Repr

/-- Tagged message variants (`CustomMessage`, `AuthenticateMessage`,
`ResetMessage`, `AD9910RegisterWriteMessage`, `DCPRegisterWriteMessage`,
`WaitMessage`, `UpdateMessage`). -/
inductive Msg where
  | custom (text : String)
  | auth (slot : ℕ)
  | reset (channel : Option ℕ)
  | spiWrite (channel : ℕ) (register_name : String) (value : String)
  | dcpWrite (channel : ℕ) (register_name : String) (value : String)
  | wait (channel : ℕ) (wait_time_string : String) (wait_event_string : String)
  | update (channel : UChan) (update_type : String)
  deriving DecidableEq, Repr

/-- Python whitespace as removed by `str.strip()`. -/
def pyIsSpace (c : Char) : Bool :=
  c = ' ' ∨ c = '\t' ∨ c = '\n' ∨ c = '\r' ∨ c = '\x0b' ∨ c = '\x0c'

/-- Drop leading and trailing whitespace characters. -/
def trimChars (l : List Char) : List Char :=
  ((l.dropWhile pyIsSpace).reverse.dropWhile pyIsSpace).reverse

/-- Python `str.strip()`. -/
def pyStrip (s : String) : String := ⟨trimChars s.toList⟩

/-- ASCII lowering of one character (the device responses are decoded as
ASCII, where Python `str.lower()` is exactly this map). -/
def lowerChar (c : Char) : Char :=
  if 'A' ≤ c ∧ c ≤ 'Z' then Char.ofNat (c.toNat + 32) else c

/-- Python `str.lower()` on an ASCII string. -/
def pyLower (s : String) : String := ⟨s.toList.map lowerChar⟩

/-- Collapse runs of spaces to single spaces (the `while "  " in msg`
replacement loop of `clean_msg`, iterated to its fixed point).  The boolean
records whether the previous character was a space. -/
def squeezeSpaces : Bool → List Char → List Char
  | _, [] => []
  | prevSpace, c :: rest =>
    if c = ' ' then
      if prevSpace then squeezeSpaces true rest
      else c :: squeezeSpaces true rest
    else c :: squeezeSpaces false rest

/-- `MessageType.clean_msg`: strip surrounding whitespace, then collapse
internal double spaces until none remain. -/
def cleanMsg (s : String) : String :=
  ⟨squeezeSpaces false (trimChars s.toList)⟩

/-- Rendering of the channel token of an `UpdateMessage`
(`self.channel if self.channel != None else ""`; the stored empty string is
not `None` and renders as itself). -/
def UChan.token : UChan → String
  | .pyNone => ""
  | .emptyStr => ""
  | .ch n => toString n

/-- `get_message` of each message variant. -/
def Msg.get_message : Msg → String
  | .custom t => t
  | .auth slot => "75f4a4e10dd4b6b" ++ toString slot
  | .reset c =>
      cleanMsg ("dds " ++ (match c with | none => "" | some n => toString n) ++ " reset")
  | .spiWrite ch reg v => cleanMsg ("dcp " ++ toString ch ++ " spi:" ++ reg ++ "=" ++ v)
  | .dcpWrite ch reg v => cleanMsg ("dcp " ++ toString ch ++ " wr:" ++ reg ++ "=" ++ v)
  | .wait ch t e => cleanMsg ("dcp " ++ toString ch ++ " wait:" ++ t ++ ":" ++ e)
  | .update c ut => cleanMsg ("dcp " ++ UChan.token c ++ " update:" ++ ut)

/-- Whether a message is an `UpdateMessage` (`isinstance(msg, UpdateMessage)`). -/
def Msg.isUpdate : Msg → Bool
  | .update _ _ => true
  | _ => false

/-- The `channel` attribute of a non-update message as a Python value;
`none` when the attribute does not exist (`CustomMessage`,
`AuthenticateMessage`), in which case Python raises `AttributeError`. -/
def Msg.channelAttr : Msg → Option PyVal
  | .custom _ => none
  | .auth _ => none
  | .reset c => some (match c with | none => .pystr "" | some n => .pyint n)
  | .spiWrite ch _ _ => some (.pyint ch)
  | .dcpWrite ch _ _ => some (.pyint ch)
  | .wait ch _ _ => some (.pyint ch)
  | .update _ _ => some .pynone

/-- The register name of a register-write message (empty for others); used
to state counting properties. -/
def Msg.regName : Msg → String
  | .spiWrite _ reg _ => reg
  | .dcpWrite _ reg _ => reg
  | .update _ _ => "update"
  | _ => ""

/-- Whether a message is one of the two register-write variants. -/
def Msg.isRegisterWrite : Msg → Bool
  | .spiWrite _ _ _ => true
  | .dcpWrite _ _ _ => true
  | _ => false

/-! ## Slot state -/

/-- The four shadow control-function registers of one slot
(`slot.cfr_regs[channel][cfr_number-1]`). -/
structure CfrRegs where
  c00 : ℕ
  c01 : ℕ
  c10 : ℕ
  c11 : ℕ
  deriving DecidableEq, Repr

/-- `slot.cfr_regs[channel][reg]`. -/
def CfrRegs.get (r : CfrRegs) (channel reg : ℕ) : ℕ :=
  match channel, reg with
  | 0, 0 => r.c00
  | 0, 1 => r.c01
  | 1, 0 => r.c10
  | 1, 1 => r.c11
  | _, _ => 0

/-- Assignment `slot.cfr_regs[channel][reg] = v`. -/
def CfrRegs.set (r : CfrRegs) (channel reg : ℕ) (v : ℕ) : CfrRegs :=
  match channel, reg with
  | 0, 0 => { r with c00 := v }
  | 0, 1 => { r with c01 := v }
  | 1, 0 => { r with c10 := v }
  | 1, 1 => { r with c11 := v }
  | _, _ => r

/-- Power-on defaults written by `_reset_cfr`:
`[[0x00410002, 0x004008C0], [0x00410002, 0x004008C0]]`. -/
def resetCfrRegs : CfrRegs :=
  { c00 := 0x00410002, c01 := 0x004008C0, c10 := 0x00410002, c11 := 0x004008C0 }

/-- Mutable state of one `WieserlabsSlot` relevant to the claims: the shadow
CFR registers and the outgoing command queue. -/
structure SlotState where
  cfr_regs : CfrRegs
  message_stack : List Msg
  deriving DecidableEq, Repr

/-- Slot state right after `_reset_cfr` plus the flush it performs: shadow
registers at the documented defaults, queue empty. -/
def resetSlotState : SlotState :=
  { cfr_regs := resetCfrRegs, message_stack := [] }

/-- `push_message`: every `Msg` is a `MessageType`, so the isinstance guard
always passes and the message is appended. -/
def push_message (s : SlotState) (msg : Msg) : SlotState :=
  { s with message_stack := s.message_stack ++ [msg] }

/-- Channel stored by the `UpdateMessage` constructor: the int when it is 0
or 1, otherwise Python `None`. -/
def mkUpdateChannel (channel : ℕ) : UChan :=
  if channel = 0 ∨ channel = 1 then .ch channel else .pyNone

/-- One step of the reversed-stack scan of `push_update`, operating on the
reversed queue.  Returns `none` on `AttributeError` (a scanned non-update
message without a `channel` attribute); otherwise the possibly rewritten
reversed queue together with `true` when the loop ended in `break` or
exhaustion (a new update must be appended) and `false` when the function
returned early. -/
def pushUpdateScan (channel : ℕ) : List Msg → Option (List Msg × Bool)
  | [] => some ([], true)
  | m :: rest =>
    match m with
    | .update c ut =>
        if c ≠ .pyNone ∧ c ≠ .ch channel then
          some (Msg.update .pyNone ut :: rest, false)
        else
          some (Msg.update c ut :: rest, false)
    | _ =>
        match m.channelAttr with
        | none => none
        | some c =>
          if c = .pynone ∨ c = .pyint channel then some (m :: rest, true)
          else (pushUpdateScan channel rest).map (fun p => (m :: p.1, p.2))

/-- `push_update`: scan the queue from the tail; widen a trailing
single-channel update of the other channel in place, coalesce with a
trailing update that already covers the channel, and otherwise append a new
`UpdateMessage(channel)`.  The `update_type` argument of the source is
ignored by the body (the new message is built as `UpdateMessage(channel)`).
`none` models the `AttributeError` crash on channel-less messages. -/
def push_update (channel : ℕ) (s : SlotState) : Option SlotState :=
  (pushUpdateScan channel s.message_stack.reverse).map fun p =>
    let stack := p.1.reverse
    if p.2 then { s with message_stack := stack ++ [Msg.update (mkUpdateChannel channel) "u"] }
    else { s with message_stack := stack }

/-! ## Register state tracker -/

/-- Result of a `_set_CFR_bit` call: normal completion, the `-1` sentinel of
a failed validation, or a raised `ValueError`. -/
inductive SetCfrOutcome where
  | ok : SetCfrOutcome
  | sentinel : SetCfrOutcome
  | raised : SetCfrOutcome
  deriving DecidableEq, Repr

/-- `_set_CFR_bit`.  Validation happens before any mutation: an invalid
channel (via `_validate_slot_channel`), `cfr_number` or `bit_number` returns
the `-1` sentinel; an invalid `bit_value` hits `raise ValueError()` (the
`return -1` after the raise is unreachable).  On the valid path the shadow
register is rewritten through `set_bit` and, when `send` is true, a full
`CFR<n>` register write (`f"{value:#010x}"`, i.e. `0x` plus 8 padded hex
digits) is appended to the queue. -/
def set_CFR_bit (s : SlotState) (channel cfr_number bit_number bit_value : ℤ)
    (send : Bool) : SetCfrOutcome × SlotState :=
  if channel ≠ 0 ∧ channel ≠ 1 then (.sentinel, s)
  else if cfr_number ≠ 1 ∧ cfr_number ≠ 2 then (.sentinel, s)
  else if bit_number < 0 ∨ 31 < bit_number then (.sentinel, s)
  else if bit_value ≠ 0 ∧ bit_value ≠ 1 then (.raised, s)
  else
    let ch := channel.toNat
    let ri := (cfr_number - 1).toNat
    let newval := set_bit (s.cfr_regs.get ch ri) bit_number.toNat bit_value
    let regs := s.cfr_regs.set ch ri newval
    if send then
      (.ok, { cfr_regs := regs,
              message_stack := s.message_stack ++
                [Msg.spiWrite ch ("CFR" ++ toString cfr_number) ("0x" ++ pyHexNat 8 newval)] })
    else
      (.ok, { s with cfr_regs := regs })

/-! ## Flush (`run` / `_send_receive`) -/

/-- Whether `_send_receive` treats a device response as an error:
`"error" in data.decode('ascii').strip().lower()`. -/
def responseHasError (response : String) : Bool :=
  decide ("error".toList <:+: (pyLower (pyStrip response)).toList)

/-- The queue as prepared by `run` before serialization: unless `no_update`
is set, a bare `UpdateMessage()` is appended when the last queued message is
not an update, and otherwise the trailing update's channel is overwritten
with the empty string so it applies to all channels. -/
def runPrepare (stack : List Msg) (no_update : Bool) : List Msg :=
  if no_update then stack
  else
    match stack.getLast? with
    | some (Msg.update _ ut) => stack.dropLast ++ [Msg.update .emptyStr ut]
    | some _ => stack ++ [Msg.update .pyNone "u"]
    | none => stack ++ [Msg.update .pyNone "u"]

/-- The newline-joined payload sent by `run` (`"\n".join(...)`). -/
def payloadOf (stack : List Msg) : String :=
  ⟨List.intercalate ['\n'] (stack.map (fun m => m.get_message.toList))⟩

/-- `run`: prepare the queue, serialize, exchange with the device, and clear
the queue.  `response` is the device reply (the transport is an external
collaborator).  The returned boolean is `true` when `_send_receive` raised
`ValueError` on an error response; the exception propagates *before*
`slot.message_stack.clear()` runs, so in that case the returned state keeps
the full prepared queue.  An empty payload makes `_send_receive` return
early without touching the socket, after which `run` clears the queue. -/
def run (s : SlotState) (no_update : Bool) (response : String) : SlotState × Bool :=
  let stack := runPrepare s.message_stack no_update
  let payload := payloadOf stack
  if pyStrip payload = "" then ({ s with message_stack := [] }, false)
  else if responseHasError response then ({ s with message_stack := stack }, true)
  else ({ s with message_stack := [] }, false)

/-! ## Waveform operation compiler -/

/-- Python return value of the ramp compilers: `None` on normal completion
or tick-overflow abort, `-1` on argument rejection. -/
inductive PyRet where
  | retNone : PyRet
  | retNegOne : PyRet
  deriving DecidableEq, Repr

/-- `_get_stp0_value`: `f"0x{amp_w}_{phase_w}_{freq_w}"`. -/
def get_stp0_value (freq amp phase : ℚ) : String :=
  "0x" ++ amp_to_word amp ++ "_" ++ phase_to_word phase ++ "_" ++ freq_to_word freq

/-- `single_tone`: set single-tone amplitude control, disable the parallel
data port, disable ramp control (sending the full CFR2), then write the
composed `stp0` value. -/
def single_tone (s : SlotState) (channel : ℕ) (freq amp phase : ℚ) : SlotState :=
  let s := (set_CFR_bit s channel 2 24 1 false).2
  let s := (set_CFR_bit s channel 2 4 0 false).2
  let s := (set_CFR_bit s channel 2 19 0 true).2
  let reg_value := get_stp0_value freq amp (pyMod phase 360)
  push_message s (Msg.spiWrite channel "stp0" reg_value)

/-- `_clear_ramp_accumulator`: pulse CFR1 bit 12 on and off, each time
sending the register and pushing an update. -/
def clear_ramp_accumulator (s : SlotState) (channel : ℕ) : Option SlotState := do
  let s := (set_CFR_bit s channel 1 12 1 true).2
  let s ← push_update channel s
  let s := (set_CFR_bit s channel 1 12 0 true).2
  push_update channel s

/-- Step-time tick count shared by the three ramp compilers:
`int(step / abs(a - b) * tramp * 1e9 / 4)`. -/
def rampTicks (a b tramp step : ℚ) : ℤ :=
  intTrunc (step / |a - b| * tramp * 1e9 / 4)

/-- `frequency_ramp`.  Equal endpoints are rejected with `-1`; a downward
request mirrors both endpoints around the Nyquist point before compiling;
the tick count is checked against `0xffff` before anything is queued. -/
def frequency_ramp (s : SlotState) (channel : ℕ)
    (fstart fend amp phase tramp fstep : ℚ) (is_filter : Bool) :
    Option (PyRet × SlotState) := do
  if fstart = fend then return (.retNegOne, s)
  let fs := if fend < fstart then 1e9 - fstart else fstart
  let fe := if fend < fstart then 1e9 - fend else fend
  let up_ramp_limit := freq_to_word (max fs fe)
  let down_ramp_limit := freq_to_word (min fs fe)
  let t_step_ns := fstep / |fs - fe| * tramp * 1e9
  let time_in_dds_clock := intTrunc (t_step_ns / 4)
  if 0xffff < time_in_dds_clock then return (.retNone, s)
  let DRL := "0x" ++ up_ramp_limit ++ down_ramp_limit
  let DRSS := "0x" ++ freq_to_word fstep ++ freq_to_word fstep
  let DRR := "0x" ++ pyHexInt 4 time_in_dds_clock ++ pyHexInt 4 time_in_dds_clock
  let s := if is_filter then s else single_tone s channel 0 amp phase
  let s ← clear_ramp_accumulator s channel
  let s :=
    if is_filter then s
    else
      let s := (set_CFR_bit s channel 2 19 1 false).2
      let s := (set_CFR_bit s channel 2 20 0 false).2
      (set_CFR_bit s channel 2 21 0 true).2
  let s := push_message s (Msg.spiWrite channel "DRL" DRL)
  let s := push_message s (Msg.spiWrite channel "DRSS" DRSS)
  let s := push_message s (Msg.spiWrite channel "DRR" DRR)
  let s :=
    if is_filter then s
    else
      let s := push_message s (Msg.update (mkUpdateChannel channel) "u-d")
      push_message s (Msg.update (mkUpdateChannel channel) "u+d")
  return (.retNone, s)

/-- `phase_ramp`, with an explicit recursion fuel for the self-invocation
that primes a downward ramp (the priming call always has `pstart = 0`, so
the real recursion depth is at most 2; any fuel of at least 3 computes every
call chain, and `none` is returned only on fuel exhaustion, which no
reachable call chain triggers). -/
def phase_ramp_fuel : ℕ → SlotState → ℕ → ℚ → ℚ → ℚ → ℚ → ℚ → ℚ → Bool → Bool →
    Option (PyRet × SlotState)
  | 0, _, _, _, _, _, _, _, _, _, _ => none
  | fuel+1, s, channel, freq, amp, pstart, pend, tramp, pstep,
      keep_amplitude_for_hack, is_filter => do
    let norm_pstart := pyMod pstart 360 / 360
    let norm_pend := pyMod pend 360 / 360
    let up_ramp_limit := pyRound (max norm_pstart norm_pend * 2^32)
    let down_ramp_limit := pyRound (min norm_pstart norm_pend * 2^32)
    let do_ramp_down := pend < pstart
    let s ←
      if is_filter then pure s
      else if do_ramp_down then do
        let r ← phase_ramp_fuel fuel s channel freq
          ((if keep_amplitude_for_hack then 1 else 0) * amp) 0 pstart 4 pstart true false
        pure r.2
      else clear_ramp_accumulator s channel
    if norm_pstart = norm_pend then return (.retNegOne, s)
    let t_step_ns := pstep / |pstart - pend| * tramp * 1e9
    let time_in_dds_clock := intTrunc (t_step_ns / 4)
    if 0xffff < time_in_dds_clock then return (.retNone, s)
    let phase_step_format := pyHexInt 8 (pyRound (pstep * 2^29 / 45))
    let DRL := "0x" ++ pyHexInt 8 up_ramp_limit ++ pyHexInt 8 down_ramp_limit
    let DRSS := "0x" ++ phase_step_format ++ phase_step_format
    let DRR := "0x" ++ pyHexInt 4 time_in_dds_clock ++ pyHexInt 4 time_in_dds_clock
    let s :=
      if is_filter then s
      else
        let s := single_tone s channel freq amp 0
        let s := (set_CFR_bit s channel 2 19 1 false).2
        let s := (set_CFR_bit s channel 2 20 1 false).2
        (set_CFR_bit s channel 2 21 0 true).2
    let s := push_message s (Msg.spiWrite channel "DRL" DRL)
    let s := push_message s (Msg.spiWrite channel "DRSS" DRSS)
    let s := push_message s (Msg.spiWrite channel "DRR" DRR)
    let s :=
      if is_filter then s
      else if do_ramp_down then
        let s := push_message s (Msg.update (mkUpdateChannel channel) "u")
        push_message s (Msg.update (mkUpdateChannel channel) "-d")
      else
        let s := push_message s (Msg.update (mkUpdateChannel channel) "u-d")
        push_message s (Msg.update (mkUpdateChannel channel) "+d")
    return (.retNone, s)

/-- `phase_ramp` with enough fuel for every reachable call chain. -/
def phase_ramp (s : SlotState) (channel : ℕ) (freq amp pstart pend tramp pstep : ℚ)
    (keep_amplitude_for_hack : Bool := true) (is_filter : Bool := false) :
    Option (PyRet × SlotState) :=
  phase_ramp_fuel 3 s channel freq amp pstart pend tramp pstep
    keep_amplitude_for_hack is_filter

/-- `amplitude_ramp`, fueled like `phase_ramp_fuel` (the priming call always
has `astart = 0`). -/
def amplitude_ramp_fuel : ℕ → SlotState → ℕ → ℚ → ℚ → ℚ → ℚ → ℚ → ℚ → Bool →
    Option (PyRet × SlotState)
  | 0, _, _, _, _, _, _, _, _, _ => none
  | fuel+1, s, channel, freq, astart, aend, phase, tramp, astep, is_filter => do
    let up_ramp_limit := pyRound (max astart (max aend 0) * (2^32 - 1))
    let down_ramp_limit := pyRound (min astart (min aend 1) * (2^32 - 1))
    let do_ramp_down := aend < astart
    let s ←
      if is_filter then pure s
      else if do_ramp_down then do
        let r ← amplitude_ramp_fuel fuel s channel freq 0 astart phase 4 astart false
        pure r.2
      else clear_ramp_accumulator s channel
    if astart = aend then return (.retNegOne, s)
    let t_step_ns := astep / |astart - aend| * tramp * 1e9
    let time_in_dds_clock := intTrunc (t_step_ns / 4)
    if 0xffff < time_in_dds_clock then return (.retNone, s)
    let amp_step_format := pyHexInt 8 (pyRound (astep * 2^32))
    let DRL := "0x" ++ pyHexInt 8 up_ramp_limit ++ pyHexInt 8 down_ramp_limit
    let DRSS := "0x" ++ amp_step_format ++ amp_step_format
    let DRR := "0x" ++ pyHexInt 4 time_in_dds_clock ++ pyHexInt 4 time_in_dds_clock
    let s :=
      if is_filter then s
      else
        let s := single_tone s channel freq 0 phase
        let s := (set_CFR_bit s channel 2 19 1 false).2
        let s := (set_CFR_bit s channel 2 20 0 false).2
        (set_CFR_bit s channel 2 21 1 true).2
    let s := push_message s (Msg.spiWrite channel "DRL" DRL)
    let s := push_message s (Msg.spiWrite channel "DRSS" DRSS)
    let s := push_message s (Msg.spiWrite channel "DRR" DRR)
    let s :=
      if is_filter then s
      else if do_ramp_down then
        let s := push_message s (Msg.update (mkUpdateChannel channel) "u")
        push_message s (Msg.update (mkUpdateChannel channel) "-d")
      else
        let s := push_message s (Msg.update (mkUpdateChannel channel) "u-d")
        push_message s (Msg.update (mkUpdateChannel channel) "+d")
    return (.retNone, s)

/-- `amplitude_ramp` with enough fuel for every reachable call chain. -/
def amplitude_ramp (s : SlotState) (channel : ℕ) (freq astart aend phase tramp astep : ℚ)
    (is_filter : Bool := false) : Option (PyRet × SlotState) :=
  amplitude_ramp_fuel 3 s channel freq astart aend phase tramp astep is_filter

/-! ## RAM playback (`from_memory`) -/

/-- `RamParameterType` with the enum ordinals of the source. -/
inductive RamParameterType where
  | FREQUENCY : RamParameterType
  | PHASE : RamParameterType
  | AMPLITUDE : RamParameterType
  | POLAR : RamParameterType
  deriving DecidableEq, Repr

/-- Enum `value` of a `RamParameterType`. -/
def RamParameterType.val : RamParameterType → ℕ
  | .FREQUENCY => 0
  | .PHASE => 1
  | .AMPLITUDE => 2
  | .POLAR => 3

/-- `retrv_freq` of `from_memory`.  Python operator precedence makes
`round(...) & 0xffff_ffff << shift` mask with `0xffff_ffff << shift`, which
for a two's-complement int keeps bits `shift .. shift+31`. -/
def retrv_freq (x : ℚ) (shift : ℕ) : ℕ :=
  let m := ((pyRound ((2:ℚ)^32 / 1e9 * x)).emod (2^(32+shift))).toNat
  m - m % 2^shift

/-- `retrv_phase` of `from_memory` (the rounded value is nonnegative since
the phase is reduced mod 360 first). -/
def retrv_phase (x : ℚ) (shift : ℕ) : ℕ :=
  (pyRound (2^16 * pyMod x 360 / 360)).toNat <<< shift

/-- `retrv_amp` of `from_memory` (clamped to `[0, 0x3fff]`, hence
nonnegative). -/
def retrv_amp (x : ℚ) (shift : ℕ) : ℕ :=
  (pyRound (max 0 (min 0x3fff (0x3fff * x)))).toNat <<< shift

/-- Sample encoder selected by `param_type`; `none` for the unimplemented
`POLAR` stub, which makes `from_memory` return `-1`. -/
def retrvDispatch : RamParameterType → Option (ℚ → ℕ)
  | .FREQUENCY => some fun x => retrv_freq x 0
  | .PHASE => some fun x => retrv_phase x 16
  | .AMPLITUDE => some fun x => retrv_amp x 18
  | .POLAR => none

/-- The packed two-samples-per-word RAM write messages emitted by the
`for i in range(len(storage) // 2)` loop of `from_memory`, on the already
reversed storage. -/
def ramPairMsgs (channel : ℕ) (retrv_fct : ℚ → ℕ) (storage : List ℚ) : List Msg :=
  let last_index : ℤ := (storage.length : ℤ) / 2 - 1
  (List.range (storage.length / 2)).flatMap fun i =>
    let first := retrv_fct (storage.getD (i*2) 0)
    let second := retrv_fct (storage.getD (i*2+1) 0)
    let val := "0x" ++ pyHexNat 8 first ++ "_" ++ pyHexNat 8 second
    if (i : ℤ) ≠ last_index then
      [Msg.spiWrite channel "RAM64C" (val ++ ":c")]
    else if storage.length % 2 = 0 then
      [Msg.spiWrite channel "RAM64E" val]
    else
      [Msg.spiWrite channel "RAM64C" (val ++ ":c"),
       Msg.spiWrite channel "RAM64E"
         ("0x" ++ pyHexNat 8 (retrv_fct (storage.getD (storage.length - 1) 0)))]

/-- `from_memory`.  The isinstance and `list(...)` guards always pass in the
typed embedding and every `ℚ` sample casts to float; the storage is
reversed, rejected when empty or longer than 512, and otherwise compiled to
the fixed program plus packed RAM writes. -/
def from_memory (s : SlotState) (channel : ℕ) (param_type : RamParameterType)
    (storage : List ℚ) (freq amp phase tramp : ℚ)
    (ramp_filter : Option RamParameterType) : Option (PyRet × SlotState) := do
  let storage := storage.reverse
  if storage.length = 0 then return (.retNegOne, s)
  if 512 < storage.length then return (.retNegOne, s)
  match retrvDispatch param_type with
  | none => return (.retNegOne, s)
  | some retrv_fct =>
    let s := push_message s (Msg.spiWrite channel "FTW" ("0x" ++ pyHexNat 8 (retrv_freq freq 0)))
    let s := push_message s (Msg.spiWrite channel "ASF" ("0x" ++ pyHexNat 8 (retrv_amp amp 2)))
    let s := push_message s (Msg.spiWrite channel "POW" ("0x" ++ pyHexNat 4 (retrv_phase phase 0)))
    let t_step := tramp / (storage.length : ℚ)
    let step_rate : ℤ := min (pyRound (t_step * 1e9 / 4)) 0xffff
    let end_idx : ℤ := (storage.length : ℤ) <<< 30
    let start_idx : ℤ := 0 <<< 14
    let no_dwell : ℤ := 0 <<< 5
    let ram_mode_control : ℤ := 1
    let ram_register_fmt : ℤ :=
      Int.lor (Int.lor (Int.lor (Int.lor (step_rate * 2^40) end_idx) start_idx) no_dwell)
        ram_mode_control
    let s := push_message s (Msg.spiWrite channel "stp0" ("0x" ++ pyHexInt 16 ram_register_fmt))
    let s ← push_update channel s
    let s ← push_update channel s
    let s := (set_CFR_bit s channel 1 29 (get_bit param_type.val 0 : ℤ) false).2
    let s := (set_CFR_bit s channel 1 30 (get_bit param_type.val 1 : ℤ) false).2
    let s := (set_CFR_bit s channel 1 31 1 true).2
    let s :=
      match ramp_filter with
      | none => s
      | some rf =>
        let s := (set_CFR_bit s channel 2 19 1 false).2
        let s := (set_CFR_bit s channel 2 20 (get_bit rf.val 0 : ℤ) false).2
        (set_CFR_bit s channel 2 21 (get_bit rf.val 1 : ℤ) true).2
    let s := push_message s (Msg.spiWrite channel "RAMB" "0:c")
    let s := { s with message_stack := s.message_stack ++ ramPairMsgs channel retrv_fct storage }
    let s ← push_update channel s
    return (.retNone, s)

/-! ## Linear-response solver (`VoltageToOutputMap`) -/

/-- `VoltageToOutputMap.ChannelType`. -/
inductive ChannelType where
  | CH0_ONLY : ChannelType
  | CH1_ONLY : ChannelType
  | BOTH : ChannelType
  deriving DecidableEq, Repr

/-- `OutputType`. -/
inductive OutputType where
  | AMPLITUDE : OutputType
  | PHASE : OutputType
  | FREQUENCY : OutputType
  deriving DecidableEq, Repr

/-- Fields of a constructed `VoltageToOutputMap`.  The output targets have
been pre-scaled by `out_fct` (integers) and the voltages by `volt_fct`.
`min_gain_setting` is only assigned by the `FREQUENCY` branch of `__init__`
(for other output types the model stores `0`; nothing in
`get_eqn_parameters` reads it). -/
structure VoltageToOutputMap where
  use_outputs : ChannelType
  output_type : OutputType
  min_gain_setting : ℤ
  out1 : ℤ
  out2 : ℤ
  out3 : ℤ
  v1ch0 : ℚ
  v2ch0 : ℚ
  v3ch0 : ℚ
  v1ch1 : ℚ
  v2ch1 : ℚ
  v3ch1 : ℚ
  deriving DecidableEq, Repr

/-- `volt_fct`: scale a voltage to a signed 16-bit DAC code. -/
def volt_fct (x : ℚ) : ℚ := if x < 0 then x * 2^15 else x * (2^15 - 1)

/-- `VoltageToOutputMap.__init__`.  The isinstance guards always pass in the
typed embedding.  For `FREQUENCY` output the gain exponent is
`int(np.ceil(np.log2(num)) - 16)` (`Nat.clog 2` is the exact ceiling of
`log2` on positive integers, matching the float computation for every
32-bit value); `num = 0` makes `int(-inf)` raise, and a negative exponent
makes the right shift inside `out_fct` raise at its first use, both
modelled as `none`.  `out3 or 0` equals `out3` numerically (falsy `out3`
means `out3 == 0`). -/
def vmap_init (use_outputs : ChannelType) (output_type : OutputType)
    (v1ch0 v1ch1 : ℚ) (out1 : ℚ) (v2ch0 v2ch1 : ℚ) (out2 : ℚ)
    (v3ch0 v3ch1 : ℚ) (out3 : ℚ) : Option VoltageToOutputMap :=
  let mk (mg : ℤ) (o1 o2 o3 : ℤ) : VoltageToOutputMap :=
    { use_outputs := use_outputs, output_type := output_type, min_gain_setting := mg,
      out1 := o1, out2 := o2, out3 := o3,
      v1ch0 := volt_fct v1ch0, v2ch0 := volt_fct v2ch0, v3ch0 := volt_fct v3ch0,
      v1ch1 := volt_fct v1ch1, v2ch1 := volt_fct v2ch1, v3ch1 := volt_fct v3ch1 }
  match output_type with
  | .FREQUENCY =>
    let num := pyAnd32 (pyRound ((2:ℚ)^32 / 1e9 * max out1 (max out2 out3)))
    if num = 0 then none
    else
      let mg : ℤ := (Nat.clog 2 num : ℤ) - 16
      if mg < 0 then none
      else
        let out_fct : ℚ → ℤ := fun x =>
          ((pyAnd32 (pyRound ((2:ℚ)^32 / 1e9 * x)) >>> mg.toNat : ℕ) : ℤ)
        some (mk mg (out_fct out1) (out_fct out2) (out_fct out3))
  | .PHASE =>
    let out_fct : ℚ → ℤ := fun x => pyRound (2^16 * x / 360)
    some (mk 0 (out_fct out1) (out_fct out2) (out_fct out3))
  | .AMPLITUDE =>
    let out_fct : ℚ → ℤ := fun x => pyRound (max 0 (min 0x3fff (0x3fff * x))) <<< 2
    some (mk 0 (out_fct out1) (out_fct out2) (out_fct out3))

/-- Exact 2x2 linear solve for the matrix `[[a,b],[c,d]]`; `none` models the
`LinAlgError` that `np.linalg.solve` raises on a singular system. -/
def solve2 (a b c d y1 y2 : ℚ) : Option (ℚ × ℚ) :=
  let det := a*d - b*c
  if det = 0 then none
  else some ((y1*d - b*y2) / det, (a*y2 - y1*c) / det)

/-- Exact 3x3 linear solve (Cramer) for the matrix
`[[a,b,c],[d,e,f],[g,h,i]]`; `none` models the singular case. -/
def solve3 (a b c d e f g h i y1 y2 y3 : ℚ) : Option (ℚ × ℚ × ℚ) :=
  let det := a*(e*i - f*h) - b*(d*i - f*g) + c*(d*h - e*g)
  if det = 0 then none
  else some (
    (y1*(e*i - f*h) - b*(y2*i - f*y3) + c*(y2*h - e*y3)) / det,
    (a*(y2*i - f*y3) - y1*(d*i - f*g) + c*(d*y3 - y2*g)) / det,
    (a*(e*y3 - y2*h) - b*(d*y3 - y2*g) + y1*(d*h - e*g)) / det)

/-- `get_eqn_parameters`.  The source assigns the coefficients of the third
equation from the *second* correspondence (`G = self.out2`,
`H = self.v2ch0`, `I = self.v2ch1`), and the third matrix row is
`[G, H, 1]`, so for `BOTH` the third input voltages never enter the solve.
Returns `(s0, s1, offset)`. -/
def get_eqn_parameters (m : VoltageToOutputMap) : Option (ℚ × ℚ × ℚ) :=
  let A : ℚ := m.out1
  let B : ℚ := m.v1ch0
  let C : ℚ := m.v1ch1
  let D : ℚ := m.out2
  let E : ℚ := m.v2ch0
  let F : ℚ := m.v2ch1
  let G : ℚ := m.out2
  let H : ℚ := m.v2ch0
  match m.use_outputs with
  | .CH0_ONLY =>
    (solve2 B 1 E 1 (A * 2^12) (D * 2^12)).map fun p => (p.1, 0, p.2 / 2^12)
  | .CH1_ONLY =>
    (solve2 C 1 F 1 (A * 2^12) (D * 2^12)).map fun p => (0, p.1, p.2 / 2^12)
  | .BOTH =>
    (solve3 B C 1 E F 1 G H 1 (A * 2^12) (D * 2^12) (G * 2^12)).map fun p =>
      (p.1, p.2.1, p.2.2 / 2^12)

/-- A record of one `_set_CFR_bit` call, used to state properties of call
sequences. -/
structure CfrCall where
  channel : ℤ
  cfr_number : ℤ
  bit_number : ℤ
  bit_value : ℤ
  send : Bool
  deriving DecidableEq, Repr

/-- The argument ranges accepted by the validation of `_set_CFR_bit`. -/
def validCfrCall (c : CfrCall) : Prop :=
  (c.channel = 0 ∨ c.channel = 1) ∧ (c.cfr_number = 1 ∨ c.cfr_number = 2) ∧
    (0 ≤ c.bit_number ∧ c.bit_number ≤ 31) ∧ (c.bit_value = 0 ∨ c.bit_value = 1)

/-- Effect of one valid call on the shadow registers alone (exactly the
`set_bit` assignment of the source, with no queue interaction). -/
def shadowApply (r : CfrRegs) (c : CfrCall) : CfrRegs :=
  r.set c.channel.toNat (c.cfr_number - 1).toNat
    (set_bit (r.get c.channel.toNat (c.cfr_number - 1).toNat) c.bit_number.toNat c.bit_value)

/-- Run a list of `_set_CFR_bit` calls in order, keeping only the state. -/
def applyCfrCalls (s : SlotState) (calls : List CfrCall) : SlotState :=
  calls.foldl
    (fun st c => (set_CFR_bit st c.channel c.cfr_number c.bit_number c.bit_value c.send).2) s

/-- Two concrete `_set_CFR_bit` calls used to instantiate the register
invariant at a sample input. -/
def sampleCfrCalls : List CfrCall :=
  [⟨0, 2, 24, 1, false⟩, ⟨1, 1, 12, 1, true⟩]

/-! ## Helper lemmas about the numeric primitives -/

theorem floor_le_pyRound (q : ℚ) : ⌊q⌋ ≤ pyRound q := by
  unfold pyRound; split_ifs <;> omega

theorem pyRound_le_floor_add_one (q : ℚ) : pyRound q ≤ ⌊q⌋ + 1 := by
  unfold pyRound; split_ifs <;> omega

/-- The two-sided no-tie characterization: when `q` lies strictly between
`n - 1/2` and `n + 1/2`, Python rounding gives `n`. -/
theorem pyRound_eq_of_bounds {q : ℚ} {n : ℤ} (h1 : (n:ℚ) - 1/2 < q)
    (h2 : q < (n:ℚ) + 1/2) : pyRound q = n := by
  rcases le_or_lt (n:ℚ) q with hq | hq
  · have hf : ⌊q⌋ = n := Int.floor_eq_iff.mpr ⟨hq, by linarith⟩
    unfold pyRound
    rw [hf, if_pos (by linarith : q - (n:ℚ) < 1/2)]
  · have hf : ⌊q⌋ = n - 1 := by
      apply Int.floor_eq_iff.mpr
      constructor
      · push_cast; linarith
      · push_cast; linarith
    unfold pyRound
    rw [hf]
    have hgt : ¬(q - ((n - 1 : ℤ):ℚ) < 1/2) := by push_neg; push_cast; linarith
    rw [if_neg hgt, if_pos (by push_cast; linarith : (1:ℚ)/2 < q - ((n - 1 : ℤ):ℚ))]
    omega

theorem pyRound_nonneg {q : ℚ} (h : 0 ≤ q) : 0 ≤ pyRound q := by
  have := floor_le_pyRound q
  have := Int.floor_nonneg.mpr h
  omega

theorem pyRound_lt_of_lt {q : ℚ} {n : ℤ} (h : q < (n:ℚ) - 1/2) : pyRound q < n := by
  have hfl : (⌊q⌋ : ℚ) ≤ q := Int.floor_le q
  have hlt : (⌊q⌋ : ℚ) < (n:ℚ) - 1/2 := lt_of_le_of_lt hfl h
  unfold pyRound
  split_ifs with h1 h2 h3
  · have : (⌊q⌋ : ℚ) < n := by linarith
    exact_mod_cast this
  all_goals {
    have hhalf : (1:ℚ)/2 ≤ q - ⌊q⌋ := by linarith
    have : (⌊q⌋ : ℚ) + 1 < n := by linarith
    have h4 : (((⌊q⌋ : ℤ) + 1 : ℤ) : ℚ) < (n:ℚ) := by push_cast; linarith
    have h5 : (⌊q⌋ : ℤ) + 1 < n := by exact_mod_cast h4
    omega
  }

theorem pyRound_mono {x y : ℚ} (h : x ≤ y) : pyRound x ≤ pyRound y := by
  rcases lt_or_le ⌊x⌋ ⌊y⌋ with hf | hf
  · calc pyRound x ≤ ⌊x⌋ + 1 := pyRound_le_floor_add_one x
      _ ≤ ⌊y⌋ := by omega
      _ ≤ pyRound y := floor_le_pyRound y
  · have hfe : ⌊x⌋ = ⌊y⌋ := le_antisymm (Int.floor_le_floor h) hf
    have hfr : x - (⌊x⌋:ℚ) ≤ y - (⌊y⌋:ℚ) := by rw [hfe]; linarith
    unfold pyRound
    rw [hfe]
    split_ifs <;> first | omega | linarith

theorem pyMod_nonneg (a : ℚ) {b : ℚ} (hb : 0 < b) : 0 ≤ pyMod a b := by
  unfold pyMod
  have h1 : (⌊a / b⌋ : ℚ) ≤ a / b := Int.floor_le (a / b)
  have h2 : b * (⌊a / b⌋ : ℚ) ≤ b * (a / b) := by
    exact mul_le_mul_of_nonneg_left h1 (le_of_lt hb)
  rw [mul_div_cancel₀ a (ne_of_gt hb)] at h2
  linarith

theorem pyMod_lt (a : ℚ) {b : ℚ} (hb : 0 < b) : pyMod a b < b := by
  unfold pyMod
  have h1 : a / b - 1 < (⌊a / b⌋ : ℚ) := Int.sub_one_lt_floor (a / b)
  have h2 : b * (a / b - 1) < b * (⌊a / b⌋ : ℚ) := by
    exact mul_lt_mul_of_pos_left h1 hb
  rw [mul_sub, mul_div_cancel₀ a (ne_of_gt hb)] at h2
  linarith

theorem intTrunc_of_nonneg {q : ℚ} (h : 0 ≤ q) : intTrunc q = ⌊q⌋ := by
  unfold intTrunc
  rw [if_pos h]

theorem intTrunc_eq_of_bounds {q : ℚ} {n : ℤ} (h0 : (0:ℚ) ≤ q) (h1 : (n:ℚ) ≤ q)
    (h2 : q < (n:ℚ) + 1) : intTrunc q = n := by
  rw [intTrunc_of_nonneg h0]
  exact Int.floor_eq_iff.mpr ⟨h1, h2⟩

theorem natToHexAux_length_le :
    ∀ fuel n k : ℕ, n ≤ fuel → n < 16^k → (natToHexAux fuel n).length ≤ k := by
  intro fuel
  induction fuel with
  | zero =>
    intro n k hn _
    interval_cases n
    · simp [natToHexAux]
  | succ fuel ih =>
    intro n k hn hk
    match n, k with
    | 0, k => simp [natToHexAux]
    | n+1, 0 => omega
    | n+1, k+1 =>
      have hdiv_le : (n+1)/16 ≤ fuel := by
        have := Nat.div_lt_self (Nat.succ_pos n) (by norm_num : 1 < 16)
        omega
      have hdiv_lt : (n+1)/16 < 16^k := by
        apply Nat.div_lt_of_lt_mul
        rw [pow_succ] at hk
        omega
      have := ih ((n+1)/16) k hdiv_le hdiv_lt
      simp only [natToHexAux, List.length_cons]
      omega

theorem pyHexNat_length {w n : ℕ} (h : n < 16^w) : (pyHexNat w n).length = w := by
  have hd : (natHexDigits n).length ≤ w := by
    unfold natHexDigits natToHexRev
    rw [List.length_reverse]
    exact natToHexAux_length_le n n w le_rfl h
  show (List.leftpad w '0' (natHexDigits n)).length = w
  rw [List.leftpad_length]
  omega

/-! ## Helper lemmas about the update coalescer and the register tracker -/

/-- Scanning past a reversed queue that holds only non-update messages with
a `channel` attribute ends in `break` or exhaustion: a fresh update must be
appended and nothing is rewritten. -/
theorem pushUpdateScan_no_update (channel : ℕ) (l : List Msg)
    (h : ∀ m ∈ l, m.isUpdate = false ∧ m.channelAttr.isSome) :
    pushUpdateScan channel l = some (l, true) := by
  induction l with
  | nil => rfl
  | cons m rest ih =>
    have hm := h m (List.mem_cons_self m rest)
    have hrest : ∀ x ∈ rest, x.isUpdate = false ∧ x.channelAttr.isSome :=
      fun x hx => h x (List.mem_cons_of_mem m hx)
    cases m with
    | update c ut => simp [Msg.isUpdate] at hm
    | custom t => simp [Msg.channelAttr] at hm
    | auth slot => simp [Msg.channelAttr] at hm
    | reset c =>
      simp only [pushUpdateScan, Msg.channelAttr]
      split_ifs <;> simp [ih hrest]
    | spiWrite ch reg v =>
      simp only [pushUpdateScan, Msg.channelAttr]
      split_ifs <;> simp [ih hrest]
    | dcpWrite ch reg v =>
      simp only [pushUpdateScan, Msg.channelAttr]
      split_ifs <;> simp [ih hrest]
    | wait ch t e =>
      simp only [pushUpdateScan, Msg.channelAttr]
      split_ifs <;> simp [ih hrest]

/-- A scan whose head message is a non-update targeting the requested
channel breaks immediately. -/
theorem pushUpdateScan_head_match (channel : ℕ) (m : Msg) (rest : List Msg)
    (h : m.channelAttr = some (.pyint channel)) (hu : m.isUpdate = false) :
    pushUpdateScan channel (m :: rest) = some (m :: rest, true) := by
  cases m with
  | update c ut => simp [Msg.isUpdate] at hu
  | custom t => simp [Msg.channelAttr] at h
  | auth slot => simp [Msg.channelAttr] at h
  | reset c =>
    simp only [pushUpdateScan]
    rw [h]
    simp
  | spiWrite ch reg v =>
    simp only [pushUpdateScan]
    rw [h]
    simp
  | dcpWrite ch reg v =>
    simp only [pushUpdateScan]
    rw [h]
    simp
  | wait ch t e =>
    simp only [pushUpdateScan]
    rw [h]
    simp

/-- `push_update` right after a register write for the same channel always
appends one fresh update, for any deeper queue content. -/
theorem push_update_after_write (channel : ℕ) (regs : CfrRegs) (stack : List Msg)
    (reg v : String) :
    push_update channel ⟨regs, stack ++ [Msg.spiWrite channel reg v]⟩ =
      some ⟨regs, stack ++ [Msg.spiWrite channel reg v,
        Msg.update (mkUpdateChannel channel) "u"]⟩ := by
  unfold push_update
  simp only [List.reverse_append, List.reverse_cons, List.reverse_nil, List.nil_append,
    List.cons_append, List.nil_append]
  rw [pushUpdateScan_head_match channel _ _ (by simp [Msg.channelAttr]) (by simp [Msg.isUpdate])]
  simp

/-- `push_update` when the queue ends in an update that already covers the
channel (either the all-channel `None` scope or the same single channel)
changes nothing. -/
theorem push_update_trailing_cover (channel : ℕ) (regs : CfrRegs) (stack : List Msg)
    {c : UChan} (ut : String) (hc : c = UChan.pyNone ∨ c = UChan.ch channel) :
    push_update channel ⟨regs, stack ++ [Msg.update c ut]⟩ =
      some ⟨regs, stack ++ [Msg.update c ut]⟩ := by
  unfold push_update
  simp only [List.reverse_append, List.reverse_cons, List.reverse_nil, List.nil_append,
    List.cons_append, List.nil_append]
  have hcond : ¬(c ≠ UChan.pyNone ∧ c ≠ UChan.ch channel) := by
    rcases hc with rfl | rfl <;> simp
  simp only [pushUpdateScan, if_neg hcond]
  simp

/-- `push_update` when the queue ends in an update scoped to a different
single channel widens that update in place and appends nothing. -/
theorem push_update_trailing_widen (channel : ℕ) (regs : CfrRegs) (stack : List Msg)
    {c : UChan} (ut : String) (hc : c ≠ UChan.pyNone ∧ c ≠ UChan.ch channel) :
    push_update channel ⟨regs, stack ++ [Msg.update c ut]⟩ =
      some ⟨regs, stack ++ [Msg.update UChan.pyNone ut]⟩ := by
  unfold push_update
  simp only [List.reverse_append, List.reverse_cons, List.reverse_nil, List.nil_append,
    List.cons_append, List.nil_append]
  simp only [pushUpdateScan, if_pos hc]
  simp

/-- On a valid call, `_set_CFR_bit` reports `ok`, updates the shadow word
through `set_bit`, and appends one full-register write exactly when `send`
is set. -/
theorem set_CFR_bit_valid (s : SlotState) (c : CfrCall) (h : validCfrCall c) :
    set_CFR_bit s c.channel c.cfr_number c.bit_number c.bit_value c.send =
      (.ok,
        { cfr_regs := shadowApply s.cfr_regs c,
          message_stack := s.message_stack ++
            (if c.send then
              [Msg.spiWrite c.channel.toNat ("CFR" ++ toString c.cfr_number)
                ("0x" ++ pyHexNat 8
                  (set_bit (s.cfr_regs.get c.channel.toNat (c.cfr_number - 1).toNat)
                    c.bit_number.toNat c.bit_value))]
             else []) }) := by
  obtain ⟨hch, hcfr, hbn, hbv⟩ := h
  unfold set_CFR_bit
  rw [if_neg (by tauto), if_neg (by tauto), if_neg (by omega), if_neg (by tauto)]
  cases hs : c.send with
  | true => simp [shadowApply]
  | false => simp [shadowApply]

/-- `_clear_ramp_accumulator` on a valid channel: two full CFR1 writes, each
followed by one single-channel update, regardless of the queue content. -/
theorem clear_ramp_accumulator_eq (s : SlotState) {ch : ℕ} (hch : ch = 0 ∨ ch = 1) :
    clear_ramp_accumulator s ch =
      some { cfr_regs := (s.cfr_regs.set ch 0 (set_bit (s.cfr_regs.get ch 0) 12 1)).set ch 0
               (set_bit ((s.cfr_regs.set ch 0 (set_bit (s.cfr_regs.get ch 0) 12 1)).get ch 0) 12 0),
             message_stack := s.message_stack ++
               [Msg.spiWrite ch "CFR1" ("0x" ++ pyHexNat 8 (set_bit (s.cfr_regs.get ch 0) 12 1)),
                Msg.update (mkUpdateChannel ch) "u",
                Msg.spiWrite ch "CFR1" ("0x" ++ pyHexNat 8
                  (set_bit ((s.cfr_regs.set ch 0 (set_bit (s.cfr_regs.get ch 0) 12 1)).get ch 0) 12 0)),
                Msg.update (mkUpdateChannel ch) "u"] } := by
  rcases hch with rfl | rfl <;>
    simp [clear_ramp_accumulator, set_CFR_bit, push_update, pushUpdateScan,
      Msg.channelAttr, push_message, mkUpdateChannel, Option.bind] <;> rfl

theorem push_update_fresh (channel : ℕ) (regs : CfrRegs) (stack : List Msg)
    (h : ∀ m ∈ stack, m.isUpdate = false ∧ m.channelAttr.isSome) :
    push_update channel ⟨regs, stack⟩ =
      some ⟨regs, stack ++ [Msg.update (mkUpdateChannel channel) "u"]⟩ := by
  unfold push_update
  rw [pushUpdateScan_no_update channel stack.reverse
    (fun m hm => h m (List.mem_reverse.mp hm))]
  simp

theorem mkUpdateChannel_cover (channel : ℕ) :
    mkUpdateChannel channel = UChan.pyNone ∨ mkUpdateChannel channel = UChan.ch channel := by
  unfold mkUpdateChannel
  split_ifs <;> simp

theorem applyCfrCalls_spec (calls : List CfrCall) :
    ∀ s : SlotState, (∀ c ∈ calls, validCfrCall c) →
      (applyCfrCalls s calls).cfr_regs = calls.foldl shadowApply s.cfr_regs ∧
      (applyCfrCalls s calls).message_stack.length =
        s.message_stack.length + (calls.filter (fun c => c.send)).length ∧
      (∀ m ∈ (applyCfrCalls s calls).message_stack,
        m ∈ s.message_stack ∨ ∃ ch reg v, m = Msg.spiWrite ch reg v) := by
  induction calls with
  | nil =>
    intro s _
    refine ⟨rfl, by simp [applyCfrCalls], fun m hm => Or.inl hm⟩
  | cons c rest ih =>
    intro s hv
    have hc := hv c (List.mem_cons_self c rest)
    have hrest : ∀ x ∈ rest, validCfrCall x := fun x hx => hv x (List.mem_cons_of_mem c hx)
    have hstep := set_CFR_bit_valid s c hc
    have hfold : applyCfrCalls s (c :: rest) =
        applyCfrCalls (set_CFR_bit s c.channel c.cfr_number c.bit_number c.bit_value c.send).2
          rest := by
      unfold applyCfrCalls
      simp [List.foldl_cons]
    rw [hfold, hstep]
    obtain ⟨ihr, ihl, ihm⟩ := ih _ hrest
    refine ⟨by rw [ihr]; simp [List.foldl_cons], ?_, ?_⟩
    · rw [ihl]
      cases hs : c.send with
      | true => simp [hs, List.filter_cons, List.length_append]; omega
      | false => simp [hs, List.filter_cons]
    · intro m hm
      rcases ihm m hm with hmem | hspi
      · rw [List.mem_append] at hmem
        rcases hmem with hmem | hmem
        · exact Or.inl hmem
        · cases hs : c.send with
          | true =>
            rw [hs] at hmem
            simp at hmem
            exact Or.inr ⟨_, _, _, hmem⟩
          | false =>
            rw [hs] at hmem
            simp at hmem
      · exact Or.inr hspi

set_option maxRecDepth 4000 in
theorem ramPairMsgs_split (ch : ℕ) (f : ℚ → ℕ) (storage : List ℚ)
    (hlen : storage.length = 512) :
    ramPairMsgs ch f storage =
      (List.range 255).flatMap (fun i =>
        [Msg.spiWrite ch "RAM64C" ("0x" ++ pyHexNat 8 (f (storage.getD (i*2) 0)) ++ "_" ++
          pyHexNat 8 (f (storage.getD (i*2+1) 0)) ++ ":c")]) ++
      [Msg.spiWrite ch "RAM64E" ("0x" ++ pyHexNat 8 (f (storage.getD (255*2) 0)) ++ "_" ++
        pyHexNat 8 (f (storage.getD (255*2+1) 0)))] := by
  unfold ramPairMsgs
  rw [hlen]
  rw [show (512:ℕ)/2 = 256 from rfl, List.range_succ, List.flatMap_append]
  congr 1

set_option maxRecDepth 8000 in
theorem flatMap_const_ram64c :
    (List.range 255).flatMap (fun _ => ["RAM64C"]) = List.replicate 255 "RAM64C" := by
  decide

/-! ## Claim theorems

One theorem per claim of the specification review, in claim order, each
preceded by its witness or counterexample material where required. -/

/-- C1 (counterexample): a flush through `run` whose response contains
"error" raises, but at that moment the queue has NOT been cleared — it
still holds the flushed write plus the update that `run` appended, so the
claim that the queue is already empty when the caller catches the error is
false. -/
theorem C1_counterexample :
    responseHasError "FlexDDS error: unknown command" = true ∧
    run ⟨resetCfrRegs, [Msg.spiWrite 0 "stp0" "0x3fff_0000_00000000"]⟩ false
        "FlexDDS error: unknown command" =
      (⟨resetCfrRegs, [Msg.spiWrite 0 "stp0" "0x3fff_0000_00000000",
        Msg.update UChan.pyNone "u"]⟩, true) ∧
    [Msg.spiWrite 0 "stp0" "0x3fff_0000_00000000", Msg.update UChan.pyNone "u"] ≠
      ([] : List Msg) := by
  decide

/-- C1 (amended): for every flush via `run` whose device response contains
the case-insensitive substring "error", the `ValueError` of `_send_receive`
propagates to the caller before `run` reaches `message_stack.clear()`: the
queue still holds the entire prepared payload (which is nonempty), and the
queue is cleared only on an error-free response. -/
theorem C1_amended (regs : CfrRegs) (stack : List Msg) (response : String)
    (herr : responseHasError response = true)
    (hne : pyStrip (payloadOf (runPrepare stack false)) ≠ "") :
    run ⟨regs, stack⟩ false response = (⟨regs, runPrepare stack false⟩, true) ∧
    runPrepare stack false ≠ [] ∧
    (∀ resp2 : String, responseHasError resp2 = false →
      run ⟨regs, stack⟩ false resp2 = (⟨regs, []⟩, false)) := by
  refine ⟨?_, ?_, ?_⟩
  · unfold run
    rw [if_neg hne, if_pos herr]
  · unfold runPrepare
    simp only [Bool.false_eq_true, if_false]
    split <;> simp
  · intro resp2 h2
    unfold run
    rw [if_neg hne, if_neg (by simp [h2])]

/-- C1 (witness): the amended statement applied at a concrete queue and a
concrete error response. -/
theorem C1_witness :
    (run ⟨resetCfrRegs, [Msg.spiWrite 0 "stp0" "0xa"]⟩ false "board error" =
      (⟨resetCfrRegs, runPrepare [Msg.spiWrite 0 "stp0" "0xa"] false⟩, true) ∧
    runPrepare [Msg.spiWrite 0 "stp0" "0xa"] false ≠ [] ∧
    (∀ resp2 : String, responseHasError resp2 = false →
      run ⟨resetCfrRegs, [Msg.spiWrite 0 "stp0" "0xa"]⟩ false resp2 =
        (⟨resetCfrRegs, []⟩, false))) :=
  C1_amended resetCfrRegs [Msg.spiWrite 0 "stp0" "0xa"] "board error" (by decide) (by decide)

/-- C2 (counterexample): an upward `phase_ramp` with `is_filter = False`
whose tick count overflows `0xffff` aborts, but only after the
accumulator-clearing commands have been queued: starting from an empty
queue the call leaves 4 commands behind, not 0 as the claim states. -/
theorem C2_counterexample :
    (phase_ramp resetSlotState 0 1000000 1 0 90 10 90 true false).map
      (fun p => (p.1, p.2.message_stack.length)) = some (PyRet.retNone, 4) ∧
    resetSlotState.message_stack.length = 0 := by
  have hm0 : pyMod (0:ℚ) 360 = 0 := by unfold pyMod; norm_num
  have hm90 : pyMod (90:ℚ) 360 = 90 := by unfold pyMod; norm_num
  have hcl := clear_ramp_accumulator_eq resetSlotState (Or.inl rfl : (0:ℕ) = 0 ∨ (0:ℕ) = 1)
  have htick : intTrunc ((90:ℚ) / |(0:ℚ) - 90| * 10 * 1e9 / 4) = 2500000000 := by
    rw [show |(0:ℚ) - 90| = 90 by rw [abs_of_nonpos] <;> norm_num]
    exact intTrunc_eq_of_bounds (by norm_num) (by norm_num) (by norm_num)
  have htick2 : intTrunc ((2500000000 : ℚ)) = 2500000000 :=
    intTrunc_eq_of_bounds (by norm_num) (by norm_num) (by norm_num)
  refine ⟨?_, rfl⟩
  norm_num [phase_ramp, phase_ramp_fuel, hm0, hm90, hcl, htick, htick2]
  norm_num [resetSlotState]

/-- C2 (amended): on a step-time tick count above `0xffff`,
`frequency_ramp` aborts with the queue completely unchanged (its tick check
precedes every push); `phase_ramp` and `amplitude_ramp` abort with the
queue unchanged when `is_filter` is true, but when `is_filter` is false the
priming/accumulator-clearing commands issued before the tick check remain:
an upward ramp leaves exactly 4 extra commands in the queue. -/
theorem C2_amended :
    (∀ (s : SlotState) (channel : ℕ) (fstart fend amp phase tramp fstep : ℚ)
      (is_filter : Bool), fstart ≠ fend → 0xffff < rampTicks fstart fend tramp fstep →
      frequency_ramp s channel fstart fend amp phase tramp fstep is_filter =
        some (PyRet.retNone, s)) ∧
    (∀ (s : SlotState) (channel : ℕ) (freq amp pstart pend tramp pstep : ℚ)
      (keep : Bool), pyMod pstart 360 / 360 ≠ pyMod pend 360 / 360 →
      0xffff < rampTicks pstart pend tramp pstep →
      phase_ramp s channel freq amp pstart pend tramp pstep keep true =
        some (PyRet.retNone, s)) ∧
    (∀ (s : SlotState) (channel : ℕ) (freq astart aend phase tramp astep : ℚ),
      astart ≠ aend → 0xffff < rampTicks astart aend tramp astep →
      amplitude_ramp s channel freq astart aend phase tramp astep true =
        some (PyRet.retNone, s)) ∧
    (∀ (s : SlotState) (channel : ℕ) (freq amp pstart pend tramp pstep : ℚ)
      (keep : Bool), channel = 0 ∨ channel = 1 → pstart ≤ pend →
      pyMod pstart 360 / 360 ≠ pyMod pend 360 / 360 →
      0xffff < rampTicks pstart pend tramp pstep →
      (phase_ramp s channel freq amp pstart pend tramp pstep keep false).map
        (fun p => (p.1, p.2.message_stack.length)) =
        some (PyRet.retNone, s.message_stack.length + 4)) ∧
    (∀ (s : SlotState) (channel : ℕ) (freq astart aend phase tramp astep : ℚ),
      channel = 0 ∨ channel = 1 → astart ≤ aend → astart ≠ aend →
      0xffff < rampTicks astart aend tramp astep →
      (amplitude_ramp s channel freq astart aend phase tramp astep false).map
        (fun p => (p.1, p.2.message_stack.length)) =
        some (PyRet.retNone, s.message_stack.length + 4)) := by
  refine ⟨?_, ?_, ?_, ?_, ?_⟩
  · intro s channel fstart fend amp phase tramp fstep is_filter hne hover
    unfold rampTicks at hover
    unfold frequency_ramp
    rw [if_neg hne]
    rcases lt_or_le fend fstart with hlt | hle
    · simp only [if_pos hlt]
      have habs : ((1e9:ℚ) - fstart) - (1e9 - fend) = -(fstart - fend) := by ring
      have hcond : 0xffff < intTrunc (fstep / |(1e9:ℚ) - fstart - (1e9 - fend)| * tramp * 1e9 / 4) := by
        rw [show (1e9:ℚ) - fstart - (1e9 - fend) = -(fstart - fend) by ring, abs_neg]
        exact hover
      rw [if_pos hcond]
      rfl
    · simp only [if_neg (not_lt.mpr hle)]
      rw [if_pos hover]
      rfl
  · intro s channel freq amp pstart pend tramp pstep keep hne hover
    unfold rampTicks at hover
    unfold phase_ramp phase_ramp_fuel
    simp only [if_pos rfl, ite_true, pure_bind]
    rw [if_neg hne, if_pos hover]
    rfl
  · intro s channel freq astart aend phase tramp astep hne hover
    unfold rampTicks at hover
    unfold amplitude_ramp amplitude_ramp_fuel
    simp only [if_pos rfl, ite_true, pure_bind]
    rw [if_neg hne, if_pos hover]
    rfl
  · intro s channel freq amp pstart pend tramp pstep keep hch hle hne hover
    unfold rampTicks at hover
    have hcl := clear_ramp_accumulator_eq s hch
    unfold phase_ramp phase_ramp_fuel
    simp only [Bool.false_eq_true, if_false, if_neg (not_lt.mpr hle), hcl, show (some : SlotState → Option SlotState) = pure from rfl, pure_bind]
    rw [if_neg hne, if_pos hover]
    simp
  · intro s channel freq astart aend phase tramp astep hch hle hne hover
    unfold rampTicks at hover
    have hcl := clear_ramp_accumulator_eq s hch
    unfold amplitude_ramp amplitude_ramp_fuel
    simp only [Bool.false_eq_true, if_false, if_neg (not_lt.mpr hle), hcl, show (some : SlotState → Option SlotState) = pure from rfl, pure_bind]
    rw [if_neg hne, if_pos hover]
    simp

/-- C2 (witness): the amended statement applied at concrete overflowing
ramps on channel 0. -/
theorem C2_witness :
    (frequency_ramp resetSlotState 0 1000000 2000000 1 0 10 1000000 false =
      some (PyRet.retNone, resetSlotState) ∧
    phase_ramp resetSlotState 0 1000000 1 0 90 10 90 true true =
      some (PyRet.retNone, resetSlotState) ∧
    amplitude_ramp resetSlotState 0 1000000 0 1 0 10 1 true =
      some (PyRet.retNone, resetSlotState) ∧
    (phase_ramp resetSlotState 0 1000000 1 0 90 10 90 true false).map
      (fun p => (p.1, p.2.message_stack.length)) =
      some (PyRet.retNone, resetSlotState.message_stack.length + 4) ∧
    (amplitude_ramp resetSlotState 0 1000000 0 1 0 10 1 false).map
      (fun p => (p.1, p.2.message_stack.length)) =
      some (PyRet.retNone, resetSlotState.message_stack.length + 4)) := by
  have hta : rampTicks 1000000 2000000 10 1000000 = 2500000000 := by
    unfold rampTicks
    rw [show ((1000000:ℚ) / |(1000000:ℚ) - 2000000| * 10 * 1e9 / 4) = 2500000000 by norm_num]
    exact intTrunc_eq_of_bounds (by norm_num) (by norm_num) (by norm_num)
  have htp : rampTicks 0 90 10 90 = 2500000000 := by
    unfold rampTicks
    rw [show ((90:ℚ) / |(0:ℚ) - 90| * 10 * 1e9 / 4) = 2500000000 by norm_num]
    exact intTrunc_eq_of_bounds (by norm_num) (by norm_num) (by norm_num)
  have htm : rampTicks 0 1 10 1 = 2500000000 := by
    unfold rampTicks
    rw [show ((1:ℚ) / |(0:ℚ) - 1| * 10 * 1e9 / 4) = 2500000000 by norm_num]
    exact intTrunc_eq_of_bounds (by norm_num) (by norm_num) (by norm_num)
  have hm0 : pyMod (0:ℚ) 360 = 0 := by unfold pyMod; norm_num
  have hm90 : pyMod (90:ℚ) 360 = 90 := by unfold pyMod; norm_num
  refine ⟨?_, ?_, ?_, ?_, ?_⟩
  · exact C2_amended.1 resetSlotState 0 1000000 2000000 1 0 10 1000000 false
      (by norm_num) (by rw [hta]; norm_num)
  · exact C2_amended.2.1 resetSlotState 0 1000000 1 0 90 10 90 true
      (by rw [hm0, hm90]; norm_num) (by rw [htp]; norm_num)
  · exact C2_amended.2.2.1 resetSlotState 0 1000000 0 1 0 10 1
      (by norm_num) (by rw [htm]; norm_num)
  · exact C2_amended.2.2.2.1 resetSlotState 0 1000000 1 0 90 10 90 true
      (Or.inl rfl) (by norm_num) (by rw [hm0, hm90]; norm_num) (by rw [htp]; norm_num)
  · exact C2_amended.2.2.2.2 resetSlotState 0 1000000 0 1 0 10 1
      (Or.inl rfl) (by norm_num) (by norm_num) (by rw [htm]; norm_num)

/-- C3 (code bug): `_set_CFR_bit` with the invalid `bit_value = 2` hits
`raise ValueError()` instead of returning the `-1` sentinel (the
`return -1` right after the raise is unreachable), while the other three
validation failures do return the sentinel without mutating the state. -/
theorem C3_code_bug_eval :
    set_CFR_bit resetSlotState 0 1 0 2 false = (SetCfrOutcome.raised, resetSlotState) ∧
    set_CFR_bit resetSlotState 2 1 0 1 false = (SetCfrOutcome.sentinel, resetSlotState) ∧
    set_CFR_bit resetSlotState 0 3 0 1 false = (SetCfrOutcome.sentinel, resetSlotState) ∧
    set_CFR_bit resetSlotState 0 1 32 1 false = (SetCfrOutcome.sentinel, resetSlotState) := by
  decide

/-- C4: coalescer idempotence and widening.  On a queue of channel-bearing
non-update messages, `push_update` appends exactly one `Update` and a second
call for the same channel appends nothing; `push_update(0)` then
`push_update(1)` widens the single appended `Update` in place to the
all-channel `None` scope, leaving exactly one `Update` in the queue. -/
theorem C4_coalescing (regs : CfrRegs) (stack : List Msg)
    (h : ∀ m ∈ stack, m.isUpdate = false ∧ m.channelAttr.isSome) :
    (∀ channel : ℕ,
      push_update channel ⟨regs, stack⟩ =
        some ⟨regs, stack ++ [Msg.update (mkUpdateChannel channel) "u"]⟩ ∧
      push_update channel ⟨regs, stack ++ [Msg.update (mkUpdateChannel channel) "u"]⟩ =
        some ⟨regs, stack ++ [Msg.update (mkUpdateChannel channel) "u"]⟩) ∧
    ((push_update 0 ⟨regs, stack⟩).bind (push_update 1) =
        some ⟨regs, stack ++ [Msg.update UChan.pyNone "u"]⟩ ∧
      (stack ++ [Msg.update UChan.pyNone "u"]).countP Msg.isUpdate = 1) := by
  refine ⟨fun channel => ⟨push_update_fresh channel regs stack h, ?_⟩, ?_, ?_⟩
  · exact push_update_trailing_cover channel regs stack "u" (mkUpdateChannel_cover channel)
  · rw [push_update_fresh 0 regs stack h]
    simp only [Option.some_bind]
    have h0 : mkUpdateChannel 0 = UChan.ch 0 := by decide
    rw [h0]
    exact push_update_trailing_widen 1 regs stack "u" (by simp)
  · rw [List.countP_append]
    have hz : stack.countP Msg.isUpdate = 0 :=
      List.countP_eq_zero.mpr (fun m hm => by simp [(h m hm).1])
    simp [hz, Msg.isUpdate]

/-- C4 (witness): the coalescing statement applied to a queue holding one
`stp0` register write. -/
theorem C4_witness :
    ((∀ channel : ℕ,
      push_update channel ⟨resetCfrRegs, [Msg.spiWrite 0 "stp0" "0x0"]⟩ =
        some ⟨resetCfrRegs, [Msg.spiWrite 0 "stp0" "0x0"] ++
          [Msg.update (mkUpdateChannel channel) "u"]⟩ ∧
      push_update channel ⟨resetCfrRegs, [Msg.spiWrite 0 "stp0" "0x0"] ++
          [Msg.update (mkUpdateChannel channel) "u"]⟩ =
        some ⟨resetCfrRegs, [Msg.spiWrite 0 "stp0" "0x0"] ++
          [Msg.update (mkUpdateChannel channel) "u"]⟩) ∧
    ((push_update 0 ⟨resetCfrRegs, [Msg.spiWrite 0 "stp0" "0x0"]⟩).bind (push_update 1) =
        some ⟨resetCfrRegs, [Msg.spiWrite 0 "stp0" "0x0"] ++ [Msg.update UChan.pyNone "u"]⟩ ∧
      ([Msg.spiWrite 0 "stp0" "0x0"] ++ [Msg.update UChan.pyNone "u"]).countP Msg.isUpdate = 1)) :=
  C4_coalescing resetCfrRegs [Msg.spiWrite 0 "stp0" "0x0"] (by decide)

/-- C5: shadow-register invariant.  For every sequence of valid
`_set_CFR_bit` calls starting from the reset defaults, the shadow CFR words
equal the cumulative fold of the pure `set_bit` updates (independent of
`send`), the queue holds exactly one message per `send=True` call (so
`send=False` calls append nothing), and the queued `RegisterWrite` count
equals the `send=True` call count. -/
theorem C5_shadow_invariant (calls : List CfrCall) (h : ∀ c ∈ calls, validCfrCall c) :
    (applyCfrCalls resetSlotState calls).cfr_regs = calls.foldl shadowApply resetCfrRegs ∧
    (applyCfrCalls resetSlotState calls).message_stack.length =
      (calls.filter (fun c => c.send)).length ∧
    (applyCfrCalls resetSlotState calls).message_stack.countP Msg.isRegisterWrite =
      (calls.filter (fun c => c.send)).length := by
  obtain ⟨hr, hl, hm⟩ := applyCfrCalls_spec calls resetSlotState h
  refine ⟨hr, by simpa [resetSlotState] using hl, ?_⟩
  have hall : ∀ m ∈ (applyCfrCalls resetSlotState calls).message_stack,
      Msg.isRegisterWrite m = true := by
    intro m hm'
    rcases hm m hm' with hmem | ⟨ch, reg, v, rfl⟩
    · simp [resetSlotState] at hmem
    · rfl
  rw [List.countP_eq_length.mpr hall]
  simpa [resetSlotState] using hl

/-- C5 (witness): the invariant applied to a concrete two-call sequence. -/
theorem C5_witness :
    ((applyCfrCalls resetSlotState sampleCfrCalls).cfr_regs =
      List.foldl shadowApply resetCfrRegs sampleCfrCalls ∧
    (applyCfrCalls resetSlotState sampleCfrCalls).message_stack.length =
      (sampleCfrCalls.filter (fun c => c.send)).length ∧
    (applyCfrCalls resetSlotState sampleCfrCalls).message_stack.countP Msg.isRegisterWrite =
      (sampleCfrCalls.filter (fun c => c.send)).length) :=
  C5_shadow_invariant sampleCfrCalls (by
    intro c hc
    simp only [sampleCfrCalls, List.mem_cons, List.not_mem_nil, or_false] at hc
    rcases hc with rfl | rfl <;> norm_num [validCfrCall])

set_option maxRecDepth 16000 in
/-- C6: `from_memory` with exactly 513 samples aborts with the `-1`
sentinel and an untouched state; with exactly 512 samples it succeeds and
the queued register names are the fixed program prefix followed by exactly
255 `RAM64C` packed sample writes, the final `RAM64E` write, and the
closing update — in particular the packed sample-write counts are
`(255, 1)`. -/
theorem C6_from_memory (param_type : RamParameterType) (storage : List ℚ)
    (freq amp phase tramp : ℚ) (channel : ℕ)
    (hch : channel = 0 ∨ channel = 1) (hpt : param_type ≠ RamParameterType.POLAR) :
    (storage.length = 513 →
      from_memory resetSlotState channel param_type storage freq amp phase tramp none =
        some (PyRet.retNegOne, resetSlotState)) ∧
    (storage.length = 512 →
      (from_memory resetSlotState channel param_type storage freq amp phase tramp none).map
          (fun p => (p.1, p.2.message_stack.map Msg.regName)) =
        some (PyRet.retNone,
          ["FTW", "ASF", "POW", "stp0", "update", "CFR1", "RAMB"] ++
            List.replicate 255 "RAM64C" ++ ["RAM64E", "update"])) ∧
    (storage.length = 512 →
      (from_memory resetSlotState channel param_type storage freq amp phase tramp none).map
          (fun p => ((p.2.message_stack.filter (fun m => m.regName = "RAM64C")).length,
                     (p.2.message_stack.filter (fun m => m.regName = "RAM64E")).length)) =
        some (255, 1)) := by
  have h1 : storage.length = 513 →
      from_memory resetSlotState channel param_type storage freq amp phase tramp none =
        some (PyRet.retNegOne, resetSlotState) := by
    intro hlen
    have hrev : storage.reverse.length = 513 := by simp [hlen]
    simp only [from_memory]
    rw [hrev]
    norm_num
  have h2 : storage.length = 512 →
      (from_memory resetSlotState channel param_type storage freq amp phase tramp none).map
          (fun p => (p.1, p.2.message_stack.map Msg.regName)) =
        some (PyRet.retNone,
          ["FTW", "ASF", "POW", "stp0", "update", "CFR1", "RAMB"] ++
            List.replicate 255 "RAM64C" ++ ["RAM64E", "update"]) := by
    intro hlen
    have hrev : storage.reverse.length = 512 := by simp [hlen]
    rcases hch with rfl | rfl <;> cases param_type <;> try (exact absurd rfl hpt)
    all_goals (
      simp only [from_memory]
      rw [hrev]
      simp only [retrvDispatch]
      simp [push_update, pushUpdateScan, Msg.channelAttr, mkUpdateChannel, set_CFR_bit,
        push_message, resetSlotState, RamParameterType.val, get_bit,
        ramPairMsgs_split _ _ _ hrev, Msg.regName, List.map_flatMap,
        flatMap_const_ram64c]
      rfl)
  refine ⟨h1, h2, ?_⟩
  intro hlen
  have hb := h2 hlen
  cases hfm : from_memory resetSlotState channel param_type storage freq amp phase tramp none with
  | none => rw [hfm] at hb; simp at hb
  | some p =>
    rw [hfm] at hb
    simp only [Option.map_some', Option.some.injEq, Prod.mk.injEq] at hb
    obtain ⟨-, hnames⟩ := hb
    simp only [Option.map_some', Option.some.injEq, Prod.mk.injEq]
    constructor
    · rw [← List.countP_eq_length_filter,
        show (fun m => decide (Msg.regName m = "RAM64C")) =
          ((fun nm => decide (nm = "RAM64C")) ∘ Msg.regName) from rfl,
        ← List.countP_map, hnames]
      decide
    · rw [← List.countP_eq_length_filter,
        show (fun m => decide (Msg.regName m = "RAM64E")) =
          ((fun nm => decide (nm = "RAM64E")) ∘ Msg.regName) from rfl,
        ← List.countP_map, hnames]
      decide

set_option maxRecDepth 16000 in
/-- C6 (witness): the statement applied at 513 and 512 concrete samples. -/
theorem C6_witness :
    (from_memory resetSlotState 0 RamParameterType.AMPLITUDE
        (List.replicate 513 0) 1 1 0 1 none = some (PyRet.retNegOne, resetSlotState)) ∧
    ((from_memory resetSlotState 0 RamParameterType.AMPLITUDE
        (List.replicate 512 0) 1 1 0 1 none).map
        (fun p => (p.1, p.2.message_stack.map Msg.regName)) =
      some (PyRet.retNone,
        ["FTW", "ASF", "POW", "stp0", "update", "CFR1", "RAMB"] ++
          List.replicate 255 "RAM64C" ++ ["RAM64E", "update"])) ∧
    ((from_memory resetSlotState 0 RamParameterType.AMPLITUDE
        (List.replicate 512 0) 1 1 0 1 none).map
        (fun p => ((p.2.message_stack.filter (fun m => m.regName = "RAM64C")).length,
                   (p.2.message_stack.filter (fun m => m.regName = "RAM64E")).length)) =
      some (255, 1)) :=
  ⟨(C6_from_memory RamParameterType.AMPLITUDE (List.replicate 513 0) 1 1 0 1 0
      (Or.inl rfl) (by decide)).1 (List.length_replicate 513 0),
   (C6_from_memory RamParameterType.AMPLITUDE (List.replicate 512 0) 1 1 0 1 0
      (Or.inl rfl) (by decide)).2.1 (List.length_replicate 512 0),
   (C6_from_memory RamParameterType.AMPLITUDE (List.replicate 512 0) 1 1 0 1 0
      (Or.inl rfl) (by decide)).2.2 (List.length_replicate 512 0)⟩

/-- C7 (counterexample): `freq_to_word` is not monotonically non-decreasing
over `[0, 1e9)`: at `1e9 - 1/16` (still inside the range) the rounded value
reaches `2^32` and the masked word wraps to `"00000000"`, strictly below
`freq_to_word(5e8) = "80000000"`. -/
theorem C7_counterexample :
    (0:ℚ) ≤ 5e8 ∧ (5e8:ℚ) < 1e9 - 1/16 ∧ ((1e9:ℚ) - 1/16) < 1e9 ∧
    freq_to_word (5e8) = "80000000" ∧ freq_to_word ((1e9:ℚ) - 1/16) = "00000000" ∧
    freqWordNum ((1e9:ℚ) - 1/16) < freqWordNum (5e8) := by
  have h5 : pyRound ((2:ℚ)^32 / 1e9 * 5e8) = 2147483648 :=
    pyRound_eq_of_bounds (by norm_num) (by norm_num)
  have h9 : pyRound ((2:ℚ)^32 / 1e9 * ((1e9:ℚ) - 1/16)) = 4294967296 :=
    pyRound_eq_of_bounds (by norm_num) (by norm_num)
  refine ⟨by norm_num, by norm_num, by norm_num, ?_, ?_, ?_⟩
  · simp only [freq_to_word, pyAnd32, h5]; decide
  · simp only [freq_to_word, pyAnd32, h9]; decide
  · simp only [freqWordNum, pyAnd32, h5, h9]; decide

/-- C7 (amended): `freq_to_word` always equals
`round(f * 2^32 / 1e9) mod 2^32` formatted as 8 hex digits (also outside
`[0, 1e9)`, where it only logs a warning and does not raise), it is
monotonically non-decreasing on `[0, 1e9 - 1e9/2^33)` — the wrap excludes
only the top `1e9/2^33 ≈ 0.116 Hz` sliver of the claimed interval — and the
anchor values at `0` and `5e8` hold. -/
theorem C7_amended :
    (∀ f : ℚ, freq_to_word f = pyHexNat 8 (freqWordNum f) ∧
      freqWordNum f = ((pyRound (f * 2^32 / 1e9)) % (2^32 : ℤ)).toNat) ∧
    (∀ f1 f2 : ℚ, 0 ≤ f1 → f1 ≤ f2 → f2 < 1e9 - 1e9 / 2^33 →
      freqWordNum f1 ≤ freqWordNum f2) ∧
    freq_to_word 0 = "00000000" ∧ freq_to_word (5e8) = "80000000" := by
  refine ⟨fun f => ⟨rfl, ?_⟩, ?_, ?_, ?_⟩
  · unfold freqWordNum pyAnd32
    rw [show (2:ℚ)^32 / 1e9 * f = f * 2^32 / 1e9 from by ring]
  · intro f1 f2 h0 h12 h2top
    unfold freqWordNum pyAnd32
    have hc : (0:ℚ) < (2:ℚ)^32 / 1e9 := by norm_num
    have hr1 : 0 ≤ pyRound ((2:ℚ)^32 / 1e9 * f1) :=
      pyRound_nonneg (mul_nonneg (le_of_lt hc) h0)
    have hmono : pyRound ((2:ℚ)^32 / 1e9 * f1) ≤ pyRound ((2:ℚ)^32 / 1e9 * f2) :=
      pyRound_mono (mul_le_mul_of_nonneg_left h12 (le_of_lt hc))
    have hub : (2:ℚ)^32 / 1e9 * f2 < ((2^32 : ℤ) : ℚ) - 1/2 := by
      have := mul_lt_mul_of_pos_left h2top hc
      push_cast
      nlinarith [this]
    have hr2 : pyRound ((2:ℚ)^32 / 1e9 * f2) < 2^32 := pyRound_lt_of_lt hub
    rw [Int.emod_eq_of_lt hr1 (lt_of_le_of_lt hmono hr2),
      Int.emod_eq_of_lt (le_trans hr1 hmono) hr2]
    exact Int.toNat_le_toNat hmono
  · have h0 : pyRound ((2:ℚ)^32 / 1e9 * 0) = 0 :=
      pyRound_eq_of_bounds (by norm_num) (by norm_num)
    simp only [freq_to_word, pyAnd32, h0]
    decide
  · have h5 : pyRound ((2:ℚ)^32 / 1e9 * 5e8) = 2147483648 :=
      pyRound_eq_of_bounds (by norm_num) (by norm_num)
    simp only [freq_to_word, pyAnd32, h5]
    decide

/-- C7 (witness): the amended monotonicity applied at `0 ≤ 5e8`. -/
theorem C7_witness :
    freqWordNum 0 ≤ freqWordNum (5e8) :=
  C7_amended.2.1 0 (5e8) le_rfl (by norm_num) (by norm_num)

/-- C8 (counterexample): `phase_to_word` does not always produce a 16-bit
field of exactly 4 hex digits: at phase `359.999` the rounded value is
`2^16` and the output is the 5-digit string `"10000"`. -/
theorem C8_counterexample :
    phase_to_word (359999/1000 : ℚ) = "10000" ∧ ("10000" : String).length ≠ 4 := by
  have hm : pyMod ((359999:ℚ)/1000) 360 = 359999/1000 := by
    unfold pyMod
    norm_num
  have hp : pyRound (2^16 * ((359999:ℚ)/1000) / 360) = 65536 :=
    pyRound_eq_of_bounds (by norm_num) (by norm_num)
  refine ⟨?_, by decide⟩
  simp only [phase_to_word, hm, hp]
  decide

/-- C8 (amended): `phase_to_word` always formats
`round((phase mod 360) / 360 * 2^16)` with minimum width 4; whenever the
normalized phase is below `360 - 360/2^17` the rounded value is a 16-bit
field and the output has exactly 4 hex digits, and all three anchor values
hold. -/
theorem C8_amended (phase : ℚ) (h : pyMod phase 360 < 360 - 360 / 2^17) :
    (phase_to_word phase =
      pyHexInt 4 (pyRound (2^16 * pyMod phase 360 / 360)) ∧
     0 ≤ pyRound (2^16 * pyMod phase 360 / 360) ∧
     pyRound (2^16 * pyMod phase 360 / 360) < 2^16 ∧
     (phase_to_word phase).length = 4) ∧
    phase_to_word 0 = "0000" ∧ phase_to_word 360 = "0000" ∧ phase_to_word 180 = "8000" := by
  have hx0 : 0 ≤ pyMod phase 360 := pyMod_nonneg phase (by norm_num)
  have hp0 : 0 ≤ pyRound (2^16 * pyMod phase 360 / 360) :=
    pyRound_nonneg (by positivity)
  have hub : 2^16 * pyMod phase 360 / 360 < ((2^16 : ℤ) : ℚ) - 1/2 := by
    push_cast
    nlinarith [h]
  have hp1 : pyRound (2^16 * pyMod phase 360 / 360) < 2^16 := pyRound_lt_of_lt hub
  refine ⟨⟨rfl, hp0, hp1, ?_⟩, ?_, ?_, ?_⟩
  · show (pyHexInt 4 (pyRound (2^16 * pyMod phase 360 / 360))).length = 4
    unfold pyHexInt
    rw [if_neg (by omega)]
    exact pyHexNat_length (by omega)
  · have hm : pyMod (0:ℚ) 360 = 0 := by unfold pyMod; norm_num
    have hp : pyRound (2^16 * (0:ℚ) / 360) = 0 :=
      pyRound_eq_of_bounds (by norm_num) (by norm_num)
    simp only [phase_to_word, hm, hp]
    decide
  · have hm : pyMod (360:ℚ) 360 = 0 := by
      unfold pyMod
      norm_num
    have hp : pyRound (2^16 * (0:ℚ) / 360) = 0 :=
      pyRound_eq_of_bounds (by norm_num) (by norm_num)
    simp only [phase_to_word, hm, hp]
    decide
  · have hm : pyMod (180:ℚ) 360 = 180 := by unfold pyMod; norm_num
    have hp : pyRound (2^16 * (180:ℚ) / 360) = 32768 :=
      pyRound_eq_of_bounds (by norm_num) (by norm_num)
    simp only [phase_to_word, hm, hp]
    decide

/-- C8 (witness): the amended statement applied at phase 90. -/
theorem C8_witness :
    ((phase_to_word 90 =
      pyHexInt 4 (pyRound (2^16 * pyMod 90 360 / 360)) ∧
     0 ≤ pyRound (2^16 * pyMod 90 360 / 360) ∧
     pyRound (2^16 * pyMod 90 360 / 360) < 2^16 ∧
     (phase_to_word 90).length = 4) ∧
    phase_to_word 0 = "0000" ∧ phase_to_word 360 = "0000" ∧ phase_to_word 180 = "8000") :=
  C8_amended 90 (by unfold pyMod; norm_num)

/-- C9: mirroring round-trip.  A `frequency_ramp` call with
`fend < fstart` produces exactly the same result — in particular the same
emitted `DRL`, `DRSS` and `DRR` register values — as calling it with the
Nyquist-mirrored endpoints `1e9 - fstart` and `1e9 - fend`. -/
theorem C9_mirroring (s : SlotState) (channel : ℕ)
    (fstart fend amp phase tramp fstep : ℚ) (is_filter : Bool)
    (h : fend < fstart) :
    frequency_ramp s channel fstart fend amp phase tramp fstep is_filter =
      frequency_ramp s channel (1e9 - fstart) (1e9 - fend) amp phase tramp fstep is_filter := by
  unfold frequency_ramp
  have hne : ¬(fstart = fend) := by intro hc; rw [hc] at h; exact lt_irrefl _ h
  have hne' : ¬((1e9:ℚ) - fstart = 1e9 - fend) := by intro hc; apply hne; linarith
  have h2 : ¬((1e9:ℚ) - fend < 1e9 - fstart) := by push_neg; linarith
  rw [if_neg hne, if_neg hne']
  simp only [h, h2, if_true, if_false, ite_true, ite_false]

/-- C9 (witness): the mirroring equation at a concrete downward ramp. -/
theorem C9_witness :
    frequency_ramp resetSlotState 0 2000000 1000000 1 0 (1/1000) 1000 false =
      frequency_ramp resetSlotState 0 (1e9 - 2000000) (1e9 - 1000000) 1 0 (1/1000) 1000 false :=
  C9_mirroring resetSlotState 0 2000000 1000000 1 0 (1/1000) 1000 false (by norm_num)

/-- C10: for maps built with channel mode `BOTH`, `get_eqn_parameters` is
independent of the third correspondence voltages `v3ch0`/`v3ch1` for every
output type, and for `PHASE` and `AMPLITUDE` also independent of `out3`:
the solver builds the third equation from the second correspondence
(`G = out2`, `H = v2ch0`). -/
theorem C10_third_equation_ignored
    (ot : OutputType) (v1ch0 v1ch1 out1 v2ch0 v2ch1 out2 : ℚ)
    (v3ch0 v3ch1 out3 v3ch0' v3ch1' out3' : ℚ)
    (h : ot = OutputType.PHASE ∨ ot = OutputType.AMPLITUDE ∨ out3 = out3') :
    (vmap_init ChannelType.BOTH ot v1ch0 v1ch1 out1 v2ch0 v2ch1 out2 v3ch0 v3ch1 out3).bind
        get_eqn_parameters =
      (vmap_init ChannelType.BOTH ot v1ch0 v1ch1 out1 v2ch0 v2ch1 out2
        v3ch0' v3ch1' out3').bind get_eqn_parameters := by
  rcases h with rfl | rfl | rfl
  · simp [vmap_init, get_eqn_parameters]
  · simp [vmap_init, get_eqn_parameters]
  · cases ot with
    | FREQUENCY =>
      simp only [vmap_init]
      split_ifs <;> simp [get_eqn_parameters]
    | PHASE => simp [vmap_init, get_eqn_parameters]
    | AMPLITUDE => simp [vmap_init, get_eqn_parameters]

/-- C10 (witness): the independence applied at two concrete `PHASE` maps
differing only in the third correspondence. -/
theorem C10_witness :
    (vmap_init ChannelType.BOTH OutputType.PHASE 1 2 10 3 4 20 100 200 30).bind
        get_eqn_parameters =
      (vmap_init ChannelType.BOTH OutputType.PHASE 1 2 10 3 4 20 (-7) 9 300).bind
        get_eqn_parameters :=
  C10_third_equation_ignored OutputType.PHASE 1 2 10 3 4 20 100 200 30 (-7) 9 300
    (Or.inl rfl)

end Wieserlabs
